import Mathlib

/-!
Shallow embedding of the peerbrowser repository (browser-client/transfer_classes.py,
browser-client/holepunch_server.py, matchmaker-server/matchmaker.py, tracker-server/app.py).

Bytes are modelled as `Nat`, byte strings as `List Nat`, wall-clock timestamps as `ℚ`
(for the peer endpoint, where Python uses `time.time()` floats) or `Nat` (for the
rendezvous registry, where only ordering matters).  Python dicts keyed by small keys
are modelled as association lists with Python's insertion semantics (replace in place
if the key is present, append otherwise); Python sets as `Finset`.
-/

/-- An observed UDP address: (IPv4 literal, port). -/
abbrev Addr : Type := String × Nat

/-- Python dict assignment `d[k] = v`: replace the binding in place when the key is
already present, append otherwise. -/
def dictInsert {α β : Type} [DecidableEq α] (k : α) (v : β) : List (α × β) → List (α × β)
  | [] => [(k, v)]
  | (k', v') :: rest => if k' = k then (k, v) :: rest else (k', v') :: dictInsert k v rest

/-- The ASCII whitespace bytes removed by Python's `bytes.strip()`:
space, tab, newline, carriage return, vertical tab, form feed. -/
def isPyWhitespace (b : Nat) : Bool :=
  b = 32 || b = 9 || b = 10 || b = 13 || b = 11 || b = 12

/-- Python `bytes.strip()` with no argument: drop ASCII whitespace bytes from both ends. -/
def pyStrip (l : List Nat) : List Nat :=
  ((l.dropWhile isPyWhitespace).reverse.dropWhile isPyWhitespace).reverse

/-- Fuel-driven worker for `splitChunks`; the fuel is the length of the list, which
bounds the number of reads the Python `while (chunk := file.read(chunk_size))` loop makes
when `chunk_size ≥ 1`. -/
def splitChunksAux : Nat → Nat → List Nat → List (List Nat)
  | _, _, [] => []
  | 0, _, _ :: _ => []
  | fuel + 1, cs, a :: rest => ((a :: rest).take cs) :: splitChunksAux fuel cs ((a :: rest).drop cs)

/-- The read loop of `OutboundTransfer._generate_chunks` (transfer_classes.py lines
109-114): successive `chunk_size`-byte slices of the file, the last one possibly
shorter, none empty.  `file.read(0)` returns `b""`, which is falsy, so a zero chunk
size produces no chunks. -/
def splitChunks (cs : Nat) (l : List Nat) : List (List Nat) :=
  if cs = 0 then [] else splitChunksAux l.length cs l

/-- Apply `pyStrip` to the last chunk, leaving the others unchanged: transfer_classes.py
line 115, `self.chunks[seq-1] = self.chunks[seq-1].strip()`. -/
def stripLast : List (List Nat) → List (List Nat)
  | [] => []
  | [c] => [pyStrip c]
  | c :: c2 :: rest => c :: stripLast (c2 :: rest)

/-- `OutboundTransfer._generate_chunks` (transfer_classes.py lines 108-115): split the
file into `chunk_size`-byte chunks, then strip ASCII whitespace from both ends of the
last chunk.  On an empty file the chunk dict is empty and `self.chunks[seq-1]` is
`self.chunks[-1]`, a `KeyError`, modelled as `none`. -/
def generateChunks (fileBytes : List Nat) (chunkSize : Nat) : Option (List (List Nat)) :=
  match splitChunks chunkSize fileBytes with
  | [] => none
  | c :: cs => some (stripLast (c :: cs))

/-- Reassembly of the transmitted chunks in sequence order, i.e. the concatenation
`InboundTransfer.assemble` performs over chunks `0 .. expected_chunks - 1`
(transfer_classes.py lines 72-75) once each stored hex string has been decoded back to
the holder's chunk bytes. -/
def reassembleChunks (chunks : List (List Nat)) : List Nat := chunks.flatten

/-- The `state` field of a transfer dataclass. -/
inductive TransferState : Type
  | receiving
  | sending
  | done
  | finished
  | cancelled
  | err
deriving DecidableEq

/-- `OutboundTransfer` (transfer_classes.py lines 85-140).  The `lock` and
`last_activity` bookkeeping fields are omitted: the former is concurrency plumbing,
the latter is written but never read by any modelled operation. -/
structure OutboundTransfer : Type where
  nonce : String
  filepath : String
  hash : String
  chunkSize : Nat
  chunks : List (Nat × List Nat)
  totalChunks : Nat
  acks : Finset Nat
  base : Nat
  lastSent : List (Nat × ℚ)
  retries : List (Nat × Nat)
  state : TransferState
deriving DecidableEq

/-- `create_outbound` (transfer_classes.py lines 162-166) together with
`OutboundTransfer.__post_init__`/`_generate_chunks`: build the chunk dict with keys
`0, 1, ...` in order, set `total_chunks`, start with no acks and `base = 0`.
`fileBytes` is the content of `MEDIA_DOWNLOAD_DIR/filepath`; `none` when
`_generate_chunks` raises (empty file). -/
def createOutbound (nonce filepath hash : String) (chunkSize : Nat) (fileBytes : List Nat) :
    Option OutboundTransfer :=
  (generateChunks fileBytes chunkSize).map fun cs =>
    { nonce := nonce, filepath := filepath, hash := hash, chunkSize := chunkSize,
      chunks := cs.enum, totalChunks := cs.length, acks := ∅, base := 0,
      lastSent := [], retries := [], state := TransferState.sending }

/-- The `while self.base in self.acks: self.base += 1` loop of `mark_acked`
(transfer_classes.py lines 125-126), driven by fuel.  `markAcked` supplies fuel
`acks.card + 1`, which is enough for the loop to reach its exit point, since every
iteration steps past a distinct member of `acks`. -/
def advanceBase : Nat → Finset Nat → Nat → Nat
  | 0, _, b => b
  | fuel + 1, acks, b => if b ∈ acks then advanceBase fuel acks (b + 1) else b

/-- `OutboundTransfer.mark_acked` (transfer_classes.py lines 121-127): add `seq` to the
ack set and advance `base` past every consecutive acked sequence number. -/
def markAcked (t : OutboundTransfer) (seq : Nat) : OutboundTransfer :=
  let acks := insert seq t.acks
  { t with acks := acks, base := advanceBase (acks.card + 1) acks t.base }

/-- `last_sent.get(seq, 0)` default read used by `should_retransmit`. -/
def lastSentOf (t : OutboundTransfer) (seq : Nat) : ℚ :=
  (t.lastSent.lookup seq).getD 0

/-- `retries.get(seq, 0)` default read used by `should_retransmit`. -/
def retriesOf (t : OutboundTransfer) (seq : Nat) : Nat :=
  (t.retries.lookup seq).getD 0

/-- `OutboundTransfer.should_retransmit` (transfer_classes.py lines 129-140): false when
`seq` is already acked; otherwise true exactly when the last send is older than the
timeout and the retry count is below the budget. -/
def shouldRetransmit (t : OutboundTransfer) (seq : Nat) (now timeout : ℚ)
    (maxRetries : Nat) : Bool :=
  if seq ∈ t.acks then false
  else if timeout < now - lastSentOf t seq then
    if maxRetries ≤ retriesOf t seq then false else true
  else false

/-- `CHUNK_RETRANSMIT_TIMEOUT = 1.0` (transfer_classes.py line 19). -/
def CHUNK_RETRANSMIT_TIMEOUT : ℚ := 1

/-- `CHUNK_MAX_RETRIES = 6` (transfer_classes.py line 20). -/
def CHUNK_MAX_RETRIES : Nat := 6

/-- The least element of `[0, total)` missing from `acks`, or `total` when every
sequence number below `total` is acked — the value the specification says `base`
must hold. -/
def minUnacked (total : Nat) (acks : Finset Nat) : Nat :=
  ((List.range total).find? fun s => decide (s ∉ acks)).getD total

/-- A `mark_acked` call: the acked sequence number (the `time.time()` stamp written to
`last_activity` is not modelled, see `OutboundTransfer`). -/
abbrev AckCall : Type := Nat

/-- Fold a sequence of `mark_acked` calls over an outbound transfer. -/
def runAcks (t : OutboundTransfer) (calls : List AckCall) : OutboundTransfer :=
  calls.foldl markAcked t

/-- `InboundTransfer` (transfer_classes.py lines 22-82).  Chunk data arrives out of a
JSON datagram, so the values stored in `chunks` are strings (hex-encoded chunk bytes);
the `lock` field is concurrency plumbing and is omitted. -/
structure InboundTransfer : Type where
  nonce : String
  hash : String
  expectedChunks : Option Nat
  chunks : List (Nat × String)
  received : Finset Nat
  lastActivity : ℚ
  filename : Option String
  state : TransferState
deriving DecidableEq

/-- `create_inbound` (transfer_classes.py lines 145-150): a fresh transfer in state
`receiving` with no chunks and unknown `expected_chunks`. -/
def createInbound (nonce hash : String) (filename : Option String) (now : ℚ) :
    InboundTransfer :=
  { nonce := nonce, hash := hash, expectedChunks := none, chunks := [], received := ∅,
    lastActivity := now, filename := filename, state := TransferState.receiving }

/-- `InboundTransfer.is_complete` (transfer_classes.py lines 38-40). -/
def isComplete (t : InboundTransfer) : Bool :=
  decide (t.state = TransferState.done)

/-- `InboundTransfer.touch` (transfer_classes.py lines 42-44). -/
def touch (t : InboundTransfer) (now : ℚ) : InboundTransfer :=
  { t with lastActivity := now }

/-- `InboundTransfer.add_chunk` (transfer_classes.py lines 46-56): a no-op unless the
state is `receiving`; otherwise store the chunk, record the sequence number, and on the
terminal chunk set `expected_chunks = seq + 1`. -/
def addChunk (t : InboundTransfer) (seq : Nat) (data : String) (isLast : Bool)
    (now : ℚ) : InboundTransfer :=
  if t.state ≠ TransferState.receiving then t
  else
    { t with
      chunks := dictInsert seq data t.chunks
      received := insert seq t.received
      expectedChunks := (if isLast then some (seq + 1) else t.expectedChunks)
      lastActivity := now }

/-- `InboundTransfer.has_all_chunks` (transfer_classes.py lines 58-64). -/
def hasAllChunks (t : InboundTransfer) : Bool :=
  match t.expectedChunks with
  | none => false
  | some n => decide (n ≤ t.received.card)

/-- Hex digit value, as accepted by Python's `bytes.fromhex`. -/
def hexVal (c : Char) : Option Nat :=
  if '0' ≤ c ∧ c ≤ '9' then some (c.toNat - 48)
  else if 'a' ≤ c ∧ c ≤ 'f' then some (c.toNat - 87)
  else if 'A' ≤ c ∧ c ≤ 'F' then some (c.toNat - 55)
  else none

/-- Decode a list of hex digits two at a time. -/
def hexPairs : List Char → Option (List Nat)
  | [] => some []
  | [_] => none
  | a :: b :: rest =>
    match hexVal a, hexVal b, hexPairs rest with
    | some x, some y, some r => some ((16 * x + y) :: r)
    | _, _, _ => none

/-- Python `bytes.fromhex` on a string of hex-digit pairs; `none` models the
`ValueError` raised on malformed input. -/
def bytesFromHex (s : String) : Option (List Nat) :=
  hexPairs s.data

/-- `InboundTransfer.assemble` (transfer_classes.py lines 66-75): raise
`RuntimeError("Transfer not complete")` unless the state is `done`; otherwise decode
`bytes.fromhex(self.chunks[i])` for `i` in `range(expected_chunks)` (a `KeyError` when
a chunk is missing, a `TypeError` when `expected_chunks` is `None`) and concatenate. -/
def assemble (t : InboundTransfer) : Except String (List Nat) :=
  if isComplete t then
    match t.expectedChunks with
    | none => Except.error "TypeError"
    | some n =>
      (List.range n).foldl
        (fun acc i =>
          match acc with
          | Except.error e => Except.error e
          | Except.ok parts =>
            match t.chunks.lookup i with
            | none => Except.error "KeyError"
            | some s =>
              match bytesFromHex s with
              | none => Except.error "ValueError"
              | some bs => Except.ok (parts ++ bs))
        (Except.ok [])
  else Except.error "RuntimeError: Transfer not complete"

/-- A mutating operation on an inbound transfer.  `has_all_chunks`, `is_complete` and
`validate_hash` only read the transfer (`validate_hash` writes a temporary file, not
the transfer), so the mutating operations are `add_chunk` and `touch`. -/
inductive InOp : Type
  | addChunk (seq : Nat) (data : String) (isLast : Bool) (now : ℚ)
  | touch (now : ℚ)

/-- Apply one inbound-transfer operation. -/
def inStep (t : InboundTransfer) : InOp → InboundTransfer
  | InOp.addChunk s d l now => addChunk t s d l now
  | InOp.touch now => touch t now

/-- Result of a fallible handler; `error` carries the Python exception. -/
def isErr {α : Type} : Except String α → Bool
  | Except.error _ => true
  | Except.ok _ => false

/-- `UDPClient._handle_file_request` (holepunch_server.py lines 100-122).  With no peer
set it prints and returns.  Otherwise it computes the file hash (`generate_hash` opens
the file; `none` in `media` models the raised `FileNotFoundError`), opens the outbound
transfer via `create_outbound` (which raises `KeyError` on an empty file, see
`generateChunks`), reads chunk 0, and then evaluates
`response_payload = {..., "hash": filehash, ...}` — but `filehash` is an undefined
name (the handler assigned `hash`, line 116), so a `NameError` is raised before any
datagram is sent; the send on line 121 also references the undefined name `payload`.
The `single_chunk` field of the never-sent payload is the literal `False`. -/
def handleFileRequest (hashOf : String → String) (media : String → Option (List Nat))
    (peer : Option Addr) (filepath nonce : String) : Except String Unit :=
  match peer with
  | none => Except.ok ()
  | some _ =>
    match media filepath with
    | none => Except.error "FileNotFoundError"
    | some fileBytes =>
      match createOutbound nonce filepath (hashOf filepath) 1200 fileBytes with
      | none => Except.error "KeyError: -1"
      | some _ => Except.error "NameError: name filehash is not defined"

/-- An externally visible effect of the `file_done` handler. -/
inductive FEvent : Type
  | sentFileComplete (dest : Addr) (nonce : String)
  | wroteFile (path : String) (bytes : List Nat)

/-- The fields a `file_done` datagram may carry. -/
structure FileDoneMsg : Type where
  seq : Option Nat
  nonce : Option String
  data : Option String
  isLast : Option Bool

/-- `UDPClient._handle_file_done` (holepunch_server.py lines 181-221), returning the
handler outcome together with the ordered trace of externally visible effects (sends
and file writes) it performed.  With no peer set it prints and returns.  Otherwise its
first statement, `seq = request.get(seq)` (line 193), reads the local variable `seq`
before assignment and raises `UnboundLocalError`, so the handler aborts before adding
the chunk, assembling, sending `file_complete` (line 214) or writing the file (lines
216-218).  Even under the charitable reading `request.get("seq")`, the
`transfer.assemble()` call on line 202 raises `RuntimeError` because the transfer state
never leaves `receiving` (see `assemble`), and line 216 references `os`, which
holepunch_server.py never imports. -/
def handleFileDone (peer : Option Addr) (_transfers : String → Option InboundTransfer)
    (_req : FileDoneMsg) : Except String Unit × List FEvent :=
  match peer with
  | none => (Except.ok (), [])
  | some _ =>
    (Except.error "UnboundLocalError: local variable seq referenced before assignment", [])

/-- A message sent by the rendezvous server (matchmaker.py module docstring):
`your_addr`, `peer`, or `error`. -/
inductive MMsg : Type
  | yourAddr (addr : Addr)
  | peer (addr : Addr)
  | err (msg : String)
deriving DecidableEq

/-- The rendezvous registry `clients: ip_str -> ((ip, port), last_seen)`
(matchmaker.py line 27), modelled as an association list with Python-dict update
semantics. -/
abbrev Registry : Type := List (String × (Addr × Nat))

/-- The `register` branch of `handle_packet` (matchmaker.py lines 53-65):
`clients[ip] = (addr, now)` keyed by the observed source IP, and a `your_addr` reply
to the observed address. -/
def handleRegister (reg : Registry) (addr : Addr) (now : Nat) :
    Registry × List (Addr × MMsg) :=
  (dictInsert addr.1 (addr, now) reg, [(addr, MMsg.yourAddr addr)])

/-- The `connect` branch of `handle_packet` (matchmaker.py lines 67-105).  A missing or
empty (falsy) `target_ip` draws an error; a registry miss draws an error; on a hit the
server sends `peer = target_addr` to the requester and then `peer = requester_addr` to
the stored target address.  The registry is not mutated. -/
def handleConnect (reg : Registry) (addr : Addr) (targetIp : Option String) :
    List (Addr × MMsg) :=
  match targetIp with
  | none => [(addr, MMsg.err "missing target_ip")]
  | some t =>
    if t = "" then [(addr, MMsg.err "missing target_ip")]
    else
      match reg.lookup t with
      | none => [(addr, MMsg.err ("target " ++ t ++ " not found or offline"))]
      | some (targetAddr, _) => [(addr, MMsg.peer targetAddr), (targetAddr, MMsg.peer addr)]

/-- The refresh in `run_server` (matchmaker.py lines 173-177): any datagram whose
source IP is already registered replaces the stored entry with the newly observed
address and the current time. -/
def refreshSeen (reg : Registry) (addr : Addr) (now : Nat) : Registry :=
  if (reg.lookup addr.1).isSome then dictInsert addr.1 (addr, now) reg else reg

/-- One pass of `cleanup_loop` (matchmaker.py lines 130-142): drop entries whose
`last_seen` is older than the cutoff. -/
def cleanupRegistry (reg : Registry) (cutoff : Nat) : Registry :=
  reg.filter fun e => decide (cutoff ≤ e.2.2)

/-- A registry-mutating event at the rendezvous server: a `register` datagram handled
by `handle_packet`, the `run_server` refresh for a datagram from a known IP, or a
`cleanup_loop` pass.  (`connect` handling never mutates the registry.) -/
inductive MMOp : Type
  | register (addr : Addr) (now : Nat)
  | refresh (addr : Addr) (now : Nat)
  | cleanup (cutoff : Nat)

/-- Apply one registry-mutating event. -/
def mmStep (reg : Registry) : MMOp → Registry
  | MMOp.register a now => (handleRegister reg a now).1
  | MMOp.refresh a now => refreshSeen reg a now
  | MMOp.cleanup c => cleanupRegistry reg c

/-- The registry after a sequence of events, starting from the empty dict the server
boots with. -/
def runMM (ops : List MMOp) : Registry :=
  ops.foldl mmStep []

/-- At most one registry entry per source IP: the keys of the association list are
pairwise distinct. -/
def oneEntryPerIp (reg : Registry) : Prop :=
  (reg.map Prod.fst).Nodup

/-- The tracker store (tracker-server/app.py): the redis sets `file:<filename>`
(holder IPs per file) and `ip:<ip>` (files per holder IP), and the `peer:lastseen`
hash.  The `file:`/`ip:`/`peer:` key prefixes keep the three namespaces disjoint, so
they are modelled as three separate maps. -/
structure Tracker : Type where
  fileIps : String → Finset String
  ipFiles : String → Finset String
  lastseen : String → Option String

/-- The empty tracker store. -/
def trackerInit : Tracker :=
  { fileIps := fun _ => ∅, ipFiles := fun _ => ∅, lastseen := fun _ => none }

/-- `add_mapping` (app.py lines 28-34): `SADD file:<filename> ip`,
`SADD ip:<ip> filename`, `HSET peer:lastseen ip now`. -/
def addMapping (st : Tracker) (ip filename now : String) : Tracker :=
  { fileIps := fun f => if f = filename then insert ip (st.fileIps f) else st.fileIps f,
    ipFiles := fun i => if i = ip then insert filename (st.ipFiles i) else st.ipFiles i,
    lastseen := fun i => if i = ip then some now else st.lastseen i }

/-- `remove_mapping` (app.py lines 36-40): `SREM file:<filename> ip`,
`SREM ip:<ip> filename`; `peer:lastseen` is not touched. -/
def removeMapping (st : Tracker) (ip filename : String) : Tracker :=
  { fileIps := fun f => if f = filename then (st.fileIps f).erase ip else st.fileIps f,
    ipFiles := fun i => if i = ip then (st.ipFiles i).erase filename else st.ipFiles i,
    lastseen := st.lastseen }

/-- `remove_peer` (app.py lines 42-49): for every file in `ip:<ip>`, `SREM` the ip from
`file:<f>`; then delete `ip:<ip>` and the lastseen field. -/
def removePeer (st : Tracker) (ip : String) : Tracker :=
  { fileIps := fun f => if f ∈ st.ipFiles ip then (st.fileIps f).erase ip else st.fileIps f,
    ipFiles := fun i => if i = ip then ∅ else st.ipFiles i,
    lastseen := fun i => if i = ip then none else st.lastseen i }

/-- A tracker mutation: `/add`, `/remove`, or `/peer_offline`. -/
inductive TrackerOp : Type
  | add (ip filename now : String)
  | remove (ip filename : String)
  | offline (ip : String)

/-- Apply one tracker mutation. -/
def trackerStep (st : Tracker) : TrackerOp → Tracker
  | TrackerOp.add ip f now => addMapping st ip f now
  | TrackerOp.remove ip f => removeMapping st ip f
  | TrackerOp.offline ip => removePeer st ip

/-- The tracker store after a sequence of mutations, starting from empty maps. -/
def runTracker (ops : List TrackerOp) : Tracker :=
  ops.foldl trackerStep trackerInit

/-- Forward/reverse consistency of the tracker store. -/
def Consistent (st : Tracker) : Prop :=
  ∀ ip f, ip ∈ st.fileIps f ↔ f ∈ st.ipFiles ip

/-- The running invariant of an outbound transfer: every acked sequence number is in
range, everything below `base` is acked and `base` itself is not. -/
def OutInv (t : OutboundTransfer) : Prop :=
  (∀ s ∈ t.acks, s < t.totalChunks) ∧ (∀ y < t.base, y ∈ t.acks) ∧ t.base ∉ t.acks

/-- A registry holding one peer, used to exercise `handleConnect` on a self-connect:
the requester's own IP is the stored key and its own observed address the stored
value, exactly the state `run_server` leaves after any datagram from that IP. -/
def selfReg : Registry := [("1.2.3.4", (("1.2.3.4", 7000), 0))]

/-- A two-peer registry state for the C4 witness. -/
def demoReg : Registry := [("9.9.9.9", (("9.9.9.9", 4000), 5))]

/-- The concrete two-chunk outbound transfer `create_outbound` builds for the file
`[1, 2, 3]` with chunk size 2. -/
def outDemo : OutboundTransfer :=
  { nonce := "n", filepath := "f", hash := "h", chunkSize := 2,
    chunks := [(0, [1, 2]), (1, [3])], totalChunks := 2, acks := ∅, base := 0,
    lastSent := [], retries := [], state := TransferState.sending }

/-- C1.  The holder-side chunking followed by in-order reassembly does NOT return the
original file bytes: `_generate_chunks` strips ASCII whitespace from the last chunk
(transfer_classes.py line 115), so the file `b"hi\n"` = `[104, 105, 10]` splits into the
single chunk `[104, 105]` and reassembles to `[104, 105]`, not `[104, 105, 10]`.  (The
stripped bytes also make the holder-announced digest of the original file disagree with
the digest of the assembled bytes, so the code contradicts its own `validate_hash`
integrity check.) -/
theorem C1_roundtrip_fails_on_trailing_whitespace :
    Option.map reassembleChunks (generateChunks [104, 105, 10] 1200) = some [104, 105] ∧
    [104, 105] ≠ [104, 105, 10] :=
  ⟨rfl, by decide⟩

/-- C2.  Whenever a peer is connected, `_handle_file_request` raises before sending
anything: it references the undefined name `filehash` (holepunch_server.py line 120)
after opening the outbound transfer, so no `file_response` datagram — with any
`single_chunk` value — is ever produced; the unreachable payload literal hardcodes
`single_chunk = False` even for a one-chunk file. -/
theorem C2_file_request_handler_raises :
    ∀ (hashOf : String → String) (media : String → Option (List Nat)) (p : Addr)
      (filepath nonce : String),
      isErr (handleFileRequest hashOf media (some p) filepath nonce) = true := by
  intro hashOf media p filepath nonce
  unfold handleFileRequest
  cases media filepath with
  | none => rfl
  | some bs => cases h : createOutbound nonce filepath (hashOf filepath) 1200 bs <;> simp [h, isErr]

/-- C3.  No execution of `_handle_file_done` emits any externally visible effect: the
handler raises `UnboundLocalError` at its first field read (holepunch_server.py line
193) whenever a peer is set, and merely returns when none is, so in particular no
execution ever sends `file_complete` — and in the source's own statement order the
`file_complete` send (lines 213-214) precedes the local file write (lines 216-218),
the reverse of the mandated write-then-ack. -/
theorem C3_file_done_no_send_no_write :
    ∀ (peer : Option Addr) (transfers : String → Option InboundTransfer) (req : FileDoneMsg),
      (handleFileDone peer transfers req).2 = [] ∧
      isErr (handleFileDone (some ("1.2.3.4", 7000)) transfers req).1 = true := by
  intro peer transfers req
  exact ⟨by cases peer <;> rfl, rfl⟩

/-- C9.  `remove_mapping` erases exactly the one forward and the one reverse entry and
leaves every other set and the whole `lastseen` map untouched. -/
theorem C9_remove_frame :
    ∀ (st : Tracker) (ip f : String),
      (removeMapping st ip f).lastseen = st.lastseen ∧
      (removeMapping st ip f).fileIps f = (st.fileIps f).erase ip ∧
      (removeMapping st ip f).ipFiles ip = (st.ipFiles ip).erase f ∧
      (∀ g, g ≠ f → (removeMapping st ip f).fileIps g = st.fileIps g) ∧
      (∀ j, j ≠ ip → (removeMapping st ip f).ipFiles j = st.ipFiles j) := by
  intro st ip f
  refine ⟨rfl, by simp [removeMapping], by simp [removeMapping], ?_, ?_⟩
  · intro g hg
    simp [removeMapping, hg]
  · intro j hj
    simp [removeMapping, hj]

/-- C9 witness: removing the pair ("1.2.3.4", "a") from the empty tracker leaves the
set for file "b", the set for peer "5.6.7.8" and the whole lastseen map unchanged. -/
theorem C9_remove_frame_witness :
    ((("b" : String) ≠ "a") ∧ (("5.6.7.8" : String) ≠ "1.2.3.4")) ∧
    ((removeMapping trackerInit "1.2.3.4" "a").lastseen = trackerInit.lastseen ∧
      (removeMapping trackerInit "1.2.3.4" "a").fileIps "b" = trackerInit.fileIps "b" ∧
      (removeMapping trackerInit "1.2.3.4" "a").ipFiles "5.6.7.8" = trackerInit.ipFiles "5.6.7.8") :=
  ⟨⟨by decide, by decide⟩,
    ⟨(C9_remove_frame trackerInit "1.2.3.4" "a").1,
      (C9_remove_frame trackerInit "1.2.3.4" "a").2.2.2.1 "b" (by decide),
      (C9_remove_frame trackerInit "1.2.3.4" "a").2.2.2.2 "5.6.7.8" (by decide)⟩⟩

/-- An inbound-transfer operation never changes the `state` field: `add_chunk` only
reads it (and writes chunk data), `touch` only writes `last_activity`. -/
theorem inStep_state (t : InboundTransfer) (op : InOp) : (inStep t op).state = t.state := by
  cases op with
  | addChunk s d l now =>
    show (addChunk t s d l now).state = t.state
    unfold addChunk
    split <;> rfl
  | touch now => rfl

/-- Folding inbound-transfer operations never changes the `state` field. -/
theorem foldl_inStep_state (ops : List InOp) :
    ∀ t : InboundTransfer, (ops.foldl inStep t).state = t.state := by
  induction ops with
  | nil => intro t; rfl
  | cons op rest ih =>
    intro t
    calc ((op :: rest).foldl inStep t).state = (rest.foldl inStep (inStep t op)).state := rfl
      _ = (inStep t op).state := ih _
      _ = t.state := inStep_state t op

/-- C10.  A transfer built by `create_inbound` starts in state `receiving` and no
sequence of `add_chunk`/`touch` calls — nothing anywhere in the repository assigns the
`state` field — ever moves it to `done`; consequently `is_complete()` stays false and
`assemble()` raises `RuntimeError("Transfer not complete")` even after every chunk and
the terminal chunk have been delivered. -/
theorem C10_inbound_never_done :
    ∀ (ops : List InOp) (nonce hash : String) (fn : Option String) (start : ℚ),
      (ops.foldl inStep (createInbound nonce hash fn start)).state = TransferState.receiving ∧
      isComplete (ops.foldl inStep (createInbound nonce hash fn start)) = false ∧
      assemble (ops.foldl inStep (createInbound nonce hash fn start))
        = Except.error "RuntimeError: Transfer not complete" := by
  intro ops nonce hash fn start
  have hs : (ops.foldl inStep (createInbound nonce hash fn start)).state
      = TransferState.receiving := foldl_inStep_state ops (createInbound nonce hash fn start)
  have hc : isComplete (ops.foldl inStep (createInbound nonce hash fn start)) = false := by
    unfold isComplete
    rw [hs]
    rfl
  refine ⟨hs, hc, ?_⟩
  unfold assemble
  rw [hc]
  rfl

/-- C4 (amended).  On a `connect` for a registered target whose stored observed address
differs from the requester's, the rendezvous sends exactly the target's address to the
requester and the requester's address to the target, and neither `peer` message carries
the observed address of its own recipient. -/
theorem C4_introduction_symmetry (reg : Registry) (reqAddr : Addr) (target : String)
    (targetAddr : Addr) (seen : Nat) (hT : target ≠ "")
    (hlook : reg.lookup target = some (targetAddr, seen)) (hne : targetAddr ≠ reqAddr) :
    handleConnect reg reqAddr (some target)
      = [(reqAddr, MMsg.peer targetAddr), (targetAddr, MMsg.peer reqAddr)] ∧
    ∀ d m, (d, m) ∈ handleConnect reg reqAddr (some target) →
      ∀ a, m = MMsg.peer a → a ≠ d := by
  have e : handleConnect reg reqAddr (some target)
      = [(reqAddr, MMsg.peer targetAddr), (targetAddr, MMsg.peer reqAddr)] := by
    simp only [handleConnect]
    rw [if_neg hT, hlook]
  refine ⟨e, ?_⟩
  intro d m hm a ha
  rw [e] at hm
  simp only [List.mem_cons, List.not_mem_nil, or_false] at hm
  rcases hm with hm | hm
  · obtain ⟨rfl, rfl⟩ := Prod.mk.injEq .. ▸ hm
    injection ha with h3
    subst h3
    exact hne
  · obtain ⟨rfl, rfl⟩ := Prod.mk.injEq .. ▸ hm
    injection ha with h3
    subst h3
    exact hne.symm

/-- C4 counterexample.  For the `connect` with `target_ip = "1.2.3.4"` received from
observed address `("1.2.3.4", 7000)` — the target is registered with exactly that
observed address — the first `peer` message the rendezvous sends carries the observed
address of its own recipient, so the claim's "neither of the two peer messages contains
the observed address of its own recipient" is false as stated. -/
theorem C4_self_connect_counterexample :
    ¬ ∀ d m, (d, m) ∈ handleConnect selfReg ("1.2.3.4", 7000) (some "1.2.3.4") →
        ∀ a, m = MMsg.peer a → a ≠ d := by
  intro h
  have e : handleConnect selfReg ("1.2.3.4", 7000) (some "1.2.3.4")
      = [(("1.2.3.4", 7000), MMsg.peer ("1.2.3.4", 7000)),
         (("1.2.3.4", 7000), MMsg.peer ("1.2.3.4", 7000))] := rfl
  exact h ("1.2.3.4", 7000) (MMsg.peer ("1.2.3.4", 7000))
    (e ▸ List.mem_cons_self _ _) ("1.2.3.4", 7000) rfl rfl

/-- C4 witness: a requester at `("8.8.8.8", 1234)` connecting to the registered IP
`"9.9.9.9"` draws the two symmetric `peer` messages, neither carrying its recipient's
own address. -/
theorem C4_introduction_symmetry_witness :
    (("9.9.9.9" : String) ≠ "" ∧
      demoReg.lookup "9.9.9.9" = some ((("9.9.9.9", 4000) : Addr), 5) ∧
      (("9.9.9.9", 4000) : Addr) ≠ ("8.8.8.8", 1234)) ∧
    (handleConnect demoReg ("8.8.8.8", 1234) (some "9.9.9.9")
        = [(("8.8.8.8", 1234), MMsg.peer ("9.9.9.9", 4000)),
           (("9.9.9.9", 4000), MMsg.peer ("8.8.8.8", 1234))] ∧
      ∀ d m, (d, m) ∈ handleConnect demoReg ("8.8.8.8", 1234) (some "9.9.9.9") →
        ∀ a, m = MMsg.peer a → a ≠ d) :=
  ⟨⟨by decide, rfl, by decide⟩,
    C4_introduction_symmetry demoReg ("8.8.8.8", 1234) "9.9.9.9" ("9.9.9.9", 4000) 5
      (by decide) rfl (by decide)⟩

/-- Each tracker operation preserves forward/reverse consistency. -/
theorem consistent_trackerStep (st : Tracker) (op : TrackerOp) (h : Consistent st) :
    Consistent (trackerStep st op) := by
  cases op with
  | add ip0 f0 now =>
    intro ip f
    show ip ∈ (addMapping st ip0 f0 now).fileIps f ↔ f ∈ (addMapping st ip0 f0 now).ipFiles ip
    unfold addMapping
    by_cases hf : f = f0 <;> by_cases hi : ip = ip0 <;>
      simp [hf, hi, Finset.mem_insert, h ip f, h ip f0, h ip0 f]
  | remove ip0 f0 =>
    intro ip f
    show ip ∈ (removeMapping st ip0 f0).fileIps f ↔ f ∈ (removeMapping st ip0 f0).ipFiles ip
    unfold removeMapping
    by_cases hf : f = f0 <;> by_cases hi : ip = ip0 <;>
      simp [hf, hi, Finset.mem_erase, h ip f, h ip f0, h ip0 f]
  | offline p =>
    intro ip f
    show ip ∈ (removePeer st p).fileIps f ↔ f ∈ (removePeer st p).ipFiles ip
    unfold removePeer
    by_cases hi : ip = p
    · subst hi
      by_cases hmem : f ∈ st.ipFiles ip <;> simp [hmem, Finset.mem_erase, h ip f]
    · by_cases hmem : f ∈ st.ipFiles p <;> simp [hmem, hi, Finset.mem_erase, h ip f]

/-- Folding tracker operations preserves forward/reverse consistency. -/
theorem consistent_foldl (ops : List TrackerOp) :
    ∀ st : Tracker, Consistent st → Consistent (ops.foldl trackerStep st) := by
  induction ops with
  | nil => exact fun st h => h
  | cons op rest ih => exact fun st h => ih (trackerStep st op) (consistent_trackerStep st op h)

/-- C5.  Starting from empty maps, after any sequence of `/add`, `/remove` and
`/peer_offline` operations the tracker's forward and reverse maps agree: an IP is in
the holder set of a file exactly when the file is in that IP's file set. -/
theorem C5_tracker_consistency :
    ∀ (ops : List TrackerOp) (ip f : String),
      ip ∈ (runTracker ops).fileIps f ↔ f ∈ (runTracker ops).ipFiles ip := by
  intro ops
  exact consistent_foldl ops trackerInit (by intro ip f; simp [trackerInit])

/-- Looking up the inserted key after a Python-dict assignment returns the new value. -/
theorem lookup_dictInsert {α β : Type} [DecidableEq α] [BEq α] [LawfulBEq α]
    (k : α) (v : β) (l : List (α × β)) :
    (dictInsert k v l).lookup k = some v := by
  induction l with
  | nil => simp [dictInsert, List.lookup]
  | cons e rest ih =>
    obtain ⟨k', v'⟩ := e
    by_cases h : k' = k
    · subst h
      simp [dictInsert, List.lookup]
    · have hbeq : (k == k') = false := beq_eq_false_iff_ne.mpr (Ne.symm h)
      simp [dictInsert, if_neg h, List.lookup, hbeq, ih]

/-- Keys after a Python-dict assignment: the new key or an old one. -/
theorem mem_keys_dictInsert {α β : Type} [DecidableEq α] (k x : α) (v : β)
    (l : List (α × β)) (hx : x ∈ (dictInsert k v l).map Prod.fst) :
    x = k ∨ x ∈ l.map Prod.fst := by
  induction l with
  | nil =>
    simp [dictInsert] at hx
    exact Or.inl hx
  | cons e rest ih =>
    obtain ⟨k', v'⟩ := e
    by_cases h : k' = k
    · subst h
      simp [dictInsert] at hx
      simpa using hx
    · simp only [dictInsert, if_neg h, List.map_cons, List.mem_cons] at hx
      rcases hx with hx | hx
      · exact Or.inr (by simp [hx])
      · rcases ih hx with hk | hold
        · exact Or.inl hk
        · exact Or.inr (by simp [hold])

/-- A Python-dict assignment preserves distinctness of the keys. -/
theorem nodup_keys_dictInsert {α β : Type} [DecidableEq α] (k : α) (v : β)
    (l : List (α × β)) (h : (l.map Prod.fst).Nodup) :
    ((dictInsert k v l).map Prod.fst).Nodup := by
  induction l with
  | nil => simp [dictInsert]
  | cons e rest ih =>
    obtain ⟨k', v'⟩ := e
    simp only [List.map_cons, List.nodup_cons] at h
    obtain ⟨hout, hrest⟩ := h
    by_cases hk : k' = k
    · subst hk
      have e : dictInsert k' v ((k', v') :: rest) = (k', v) :: rest := by simp [dictInsert]
      rw [e, List.map_cons, List.nodup_cons]
      exact ⟨hout, hrest⟩
    · simp only [dictInsert, if_neg hk, List.map_cons, List.nodup_cons]
      refine ⟨?_, ih hrest⟩
      intro hmem
      rcases mem_keys_dictInsert k k' v rest hmem with rfl | hold
      · exact hk rfl
      · exact hout hold

/-- Each registry-mutating event preserves the one-entry-per-IP invariant. -/
theorem oneEntryPerIp_mmStep (reg : Registry) (op : MMOp) (h : oneEntryPerIp reg) :
    oneEntryPerIp (mmStep reg op) := by
  cases op with
  | register a now => exact nodup_keys_dictInsert a.1 (a, now) reg h
  | refresh a now =>
    show oneEntryPerIp (refreshSeen reg a now)
    unfold refreshSeen
    split
    · exact nodup_keys_dictInsert a.1 (a, now) reg h
    · exact h
  | cleanup c =>
    exact List.Nodup.sublist (List.Sublist.map Prod.fst (List.filter_sublist reg)) h

/-- Folding registry-mutating events preserves the one-entry-per-IP invariant. -/
theorem oneEntryPerIp_foldl (ops : List MMOp) :
    ∀ reg : Registry, oneEntryPerIp reg → oneEntryPerIp (ops.foldl mmStep reg) := by
  induction ops with
  | nil => exact fun reg h => h
  | cons op rest ih => exact fun reg h => ih (mmStep reg op) (oneEntryPerIp_mmStep reg op h)

/-- C6.  After any sequence of registers, refreshes and cleanup passes the registry
holds at most one entry per source IP, and a further `register` from an IP that is
already registered — in particular with a different source port — replaces the stored
observed address with the newly observed one and refreshes its `last_seen`. -/
theorem C6_registry_freshness :
    ∀ ops : List MMOp,
      oneEntryPerIp (runMM ops) ∧
      ∀ (ip oldIp : String) (oldPort oldSeen newPort newSeen : Nat),
        (runMM ops).lookup ip = some ((oldIp, oldPort), oldSeen) → oldPort ≠ newPort →
        (runMM (ops ++ [MMOp.register (ip, newPort) newSeen])).lookup ip
          = some ((ip, newPort), newSeen) := by
  intro ops
  constructor
  · exact oneEntryPerIp_foldl ops [] (by simp [oneEntryPerIp])
  · intro ip oldIp oldPort oldSeen newPort newSeen _ _
    show (List.foldl mmStep [] (ops ++ [MMOp.register (ip, newPort) newSeen])).lookup ip
      = some ((ip, newPort), newSeen)
    rw [List.foldl_append]
    exact lookup_dictInsert ip ((ip, newPort), newSeen) (List.foldl mmStep [] ops)

/-- C6 witness: a registry with `"1.2.3.4"` registered at port 7000 and time 10, then a
re-register from port 7001 at time 20; the single entry is replaced and refreshed. -/
theorem C6_registry_freshness_witness :
    ((runMM [MMOp.register ("1.2.3.4", 7000) 10]).lookup "1.2.3.4"
        = some ((("1.2.3.4" : String), 7000), 10) ∧ (7000 : Nat) ≠ 7001) ∧
    (oneEntryPerIp (runMM [MMOp.register ("1.2.3.4", 7000) 10]) ∧
      (runMM ([MMOp.register ("1.2.3.4", 7000) 10]
          ++ [MMOp.register ("1.2.3.4", 7001) 20])).lookup "1.2.3.4"
        = some ((("1.2.3.4" : String), 7001), 20)) :=
  ⟨⟨rfl, by decide⟩,
    ⟨(C6_registry_freshness [MMOp.register ("1.2.3.4", 7000) 10]).1,
      (C6_registry_freshness [MMOp.register ("1.2.3.4", 7000) 10]).2
        "1.2.3.4" "1.2.3.4" 7000 10 7001 20 rfl (by decide)⟩⟩

/-- With enough fuel, the `while base in acks` loop stops at the least non-member at or
above its starting point: the result is ≥ the start, is not acked, and everything
between the start and the result is acked. -/
theorem advanceBase_char (fuel : Nat) :
    ∀ (b : Nat) (acks : Finset Nat), (acks.filter fun x => b ≤ x).card < fuel →
      b ≤ advanceBase fuel acks b ∧ advanceBase fuel acks b ∉ acks ∧
      ∀ y, b ≤ y → y < advanceBase fuel acks b → y ∈ acks := by
  induction fuel with
  | zero => exact fun b acks h => absurd h (Nat.not_lt_zero _)
  | succ n ih =>
    intro b acks h
    have hun : advanceBase (n + 1) acks b
        = if b ∈ acks then advanceBase n acks (b + 1) else b := rfl
    rw [hun]
    by_cases hb : b ∈ acks
    · rw [if_pos hb]
      have hsplit : (acks.filter fun x => b ≤ x) = insert b (acks.filter fun x => b + 1 ≤ x) := by
        ext x
        simp only [Finset.mem_filter, Finset.mem_insert]
        constructor
        · rintro ⟨hxa, hbx⟩
          rcases Nat.eq_or_lt_of_le hbx with hbx' | hbx'
          · exact Or.inl hbx'.symm
          · exact Or.inr ⟨hxa, hbx'⟩
        · rintro (rfl | ⟨hxa, hx⟩)
          · exact ⟨hb, Nat.le_refl _⟩
          · exact ⟨hxa, Nat.le_of_succ_le hx⟩
      have hnot : b ∉ acks.filter fun x => b + 1 ≤ x := by
        simp only [Finset.mem_filter]
        rintro ⟨-, hx⟩
        exact Nat.not_succ_le_self b hx
      have hcard : (acks.filter fun x => b + 1 ≤ x).card < n := by
        rw [hsplit, Finset.card_insert_of_not_mem hnot] at h
        exact Nat.lt_of_succ_lt_succ h
      obtain ⟨h1, h2, h3⟩ := ih (b + 1) acks hcard
      refine ⟨Nat.le_trans (Nat.le_succ b) h1, h2, ?_⟩
      intro y hby hyr
      rcases Nat.eq_or_lt_of_le hby with rfl | hby'
      · exact hb
      · exact h3 y hby' hyr
    · rw [if_neg hb]
      exact ⟨Nat.le_refl b, hb, fun y h1 h2 => absurd (Nat.lt_of_le_of_lt h1 h2) (Nat.lt_irrefl b)⟩

/-- `mark_acked` with an in-range sequence number preserves the outbound invariant. -/
theorem outInv_markAcked (t : OutboundTransfer) (s : Nat) (hs : s < t.totalChunks)
    (h : OutInv t) : OutInv (markAcked t s) := by
  obtain ⟨hbound, hbelow, hbase⟩ := h
  have hcard : ((insert s t.acks).filter fun x => t.base ≤ x).card < (insert s t.acks).card + 1 :=
    Nat.lt_succ_of_le (Finset.card_filter_le _ _)
  obtain ⟨h1, h2, h3⟩ := advanceBase_char ((insert s t.acks).card + 1) t.base (insert s t.acks) hcard
  refine ⟨?_, ?_, h2⟩
  · intro x hx
    rcases Finset.mem_insert.1 hx with rfl | hx'
    · exact hs
    · exact hbound x hx'
  · intro y hy
    by_cases hyb : y < t.base
    · exact Finset.mem_insert_of_mem (hbelow y hyb)
    · exact h3 y (Nat.le_of_not_lt hyb) hy

/-- `mark_acked` leaves the chunk map and the chunk count unchanged. -/
theorem markAcked_chunks (t : OutboundTransfer) (s : Nat) :
    (markAcked t s).chunks = t.chunks ∧ (markAcked t s).totalChunks = t.totalChunks :=
  ⟨rfl, rfl⟩

/-- Folding in-range `mark_acked` calls preserves the outbound invariant, the chunk map
and the chunk count. -/
theorem outInv_runAcks (calls : List AckCall) :
    ∀ t : OutboundTransfer, OutInv t → (∀ c ∈ calls, c < t.totalChunks) →
      OutInv (runAcks t calls) ∧ (runAcks t calls).chunks = t.chunks ∧
      (runAcks t calls).totalChunks = t.totalChunks := by
  induction calls with
  | nil => exact fun t h _ => ⟨h, rfl, rfl⟩
  | cons c rest ih =>
    intro t h hc
    have hct : c < t.totalChunks := hc c (List.mem_cons_self c rest)
    have hstep : OutInv (markAcked t c) := outInv_markAcked t c hct h
    have hrest : ∀ x ∈ rest, x < (markAcked t c).totalChunks := by
      intro x hx
      exact hc x (List.mem_cons_of_mem c hx)
    obtain ⟨ha, hb, hcnt⟩ := ih (markAcked t c) hstep hrest
    exact ⟨ha, hb, hcnt⟩

/-- `find?` over `range' s n`, with default `s + n`, returns the least witness when one
is characterized: everything in `[s, b)` fails the predicate and `b` either passes it or
is the end of the range. -/
theorem find?_range'_getD (p : Nat → Bool) :
    ∀ (n s b : Nat), s ≤ b → b ≤ s + n → (∀ y, s ≤ y → y < b → p y = false) →
      (b = s + n ∨ p b = true) → ((List.range' s n).find? p).getD (s + n) = b := by
  intro n
  induction n with
  | zero =>
    intro s b h1 h2 _ _
    simpa using Nat.le_antisymm h1 (by simpa using h2)
  | succ n ih =>
    intro s b h1 h2 hfail hlast
    rw [List.range'_succ s n 1, List.find?_cons]
    by_cases hp : p s = true
    · have hbs : b = s := by
        rcases Nat.eq_or_lt_of_le h1 with h | h
        · exact h.symm
        · exact absurd (hfail s (Nat.le_refl s) h) (by simp [hp])
      simp [hp, hbs]
    · have hbs : s + 1 ≤ b := by
        rcases Nat.eq_or_lt_of_le h1 with h | h
        · subst h
          rcases hlast with h | h
          · omega
          · exact absurd h (by simp [hp])
        · exact h
      rw [Bool.not_eq_true] at hp
      rw [hp]
      have := ih (s + 1) b hbs (by omega) (fun y hy hyb => hfail y (by omega) hyb)
        (by rcases hlast with h | h
            · exact Or.inl (by omega)
            · exact Or.inr h)
      have harith : s + 1 + n = s + (n + 1) := by omega
      rw [harith] at this
      exact this

/-- `minUnacked` is the unique value that is ≤ `total`, has everything below it acked,
and is either `total` or unacked itself. -/
theorem minUnacked_eq (total : Nat) (acks : Finset Nat) (b : Nat) (h1 : b ≤ total)
    (h2 : ∀ y < b, y ∈ acks) (h3 : b = total ∨ b ∉ acks) : minUnacked total acks = b := by
  unfold minUnacked
  rw [List.range_eq_range' total]
  have := find?_range'_getD (fun s => decide (s ∉ acks)) total 0 b (Nat.zero_le b)
    (by omega) (fun y _ hy => by simp [h2 y hy])
    (by rcases h3 with h | h
        · exact Or.inl (by omega)
        · exact Or.inr (by simp [h]))
  simpa using this

/-- An outbound transfer built by `create_outbound` satisfies the invariant and has the
chunk keys `0, 1, ..., total_chunks - 1` in order. -/
theorem createOutbound_init (nonce filepath hash : String) (chunkSize : Nat)
    (fileBytes : List Nat) (t : OutboundTransfer)
    (hc : createOutbound nonce filepath hash chunkSize fileBytes = some t) :
    t.chunks.map Prod.fst = List.range t.totalChunks ∧ OutInv t := by
  unfold createOutbound at hc
  rcases Option.map_eq_some'.1 hc with ⟨cs, -, rfl⟩
  refine ⟨List.enum_map_fst cs, ?_, ?_, ?_⟩
  · intro s hs
    simp at hs
  · intro y hy
    exact absurd hy (Nat.not_lt_zero y)
  · simp

/-- C7.  For every outbound transfer built by `create_outbound` and every sequence of
`mark_acked` calls with in-range sequence numbers, the chunk map has exactly the keys
`[0, total_chunks)`, the acked set is contained in `[0, total_chunks)`, and `base` is
the least unacked sequence number, or `total_chunks` when everything is acked. -/
theorem C7_outbound_invariants (nonce filepath hash : String) (chunkSize : Nat)
    (fileBytes : List Nat) (t0 : OutboundTransfer) (calls : List AckCall)
    (hc : createOutbound nonce filepath hash chunkSize fileBytes = some t0)
    (hcalls : ∀ c ∈ calls, c < t0.totalChunks) :
    (runAcks t0 calls).chunks.map Prod.fst = List.range (runAcks t0 calls).totalChunks ∧
    (∀ s ∈ (runAcks t0 calls).acks, s < (runAcks t0 calls).totalChunks) ∧
    (runAcks t0 calls).base
      = minUnacked (runAcks t0 calls).totalChunks (runAcks t0 calls).acks := by
  obtain ⟨hkeys0, hinv0⟩ := createOutbound_init nonce filepath hash chunkSize fileBytes t0 hc
  obtain ⟨⟨hbound, hbelow, hbase⟩, hchunks, hcnt⟩ := outInv_runAcks calls t0 hinv0 hcalls
  refine ⟨by rw [hchunks, hcnt]; exact hkeys0, hbound, ?_⟩
  have hle : (runAcks t0 calls).base ≤ (runAcks t0 calls).totalChunks := by
    by_contra hgt
    have h1 : (runAcks t0 calls).totalChunks < (runAcks t0 calls).base := Nat.lt_of_not_le hgt
    exact Nat.lt_irrefl _ (hbound _ (hbelow _ h1))
  exact (minUnacked_eq _ _ _ hle hbelow (Or.inr hbase)).symm

/-- C7 witness: acking sequence numbers 1 then 0 of the two-chunk transfer leaves the
chunk keys `[0, 1]`, the ack set inside `[0, 2)` and `base = 2 = minUnacked`. -/
theorem C7_outbound_invariants_witness :
    (createOutbound "n" "f" "h" 2 [1, 2, 3] = some outDemo ∧
      ∀ c ∈ [1, 0], c < outDemo.totalChunks) ∧
    ((runAcks outDemo [1, 0]).chunks.map Prod.fst
        = List.range (runAcks outDemo [1, 0]).totalChunks ∧
      (∀ s ∈ (runAcks outDemo [1, 0]).acks, s < (runAcks outDemo [1, 0]).totalChunks) ∧
      (runAcks outDemo [1, 0]).base
        = minUnacked (runAcks outDemo [1, 0]).totalChunks (runAcks outDemo [1, 0]).acks) :=
  ⟨⟨rfl, by decide⟩,
    C7_outbound_invariants "n" "f" "h" 2 [1, 2, 3] outDemo [1, 0] rfl (by decide)⟩

/-- C8 (amended).  `should_retransmit(seq, now, timeout, max_retries)` returns true iff
`seq` is not yet acknowledged (the code checks `seq in self.acks`, not `seq == base`),
`now` minus the last-send timestamp strictly exceeds the timeout, and the retry count
is strictly below the budget; the nominal constants are a 1.0 s timeout and 6 retries. -/
theorem C8_retransmit_eligibility :
    (∀ (t : OutboundTransfer) (seq : Nat) (now timeout : ℚ) (maxRetries : Nat),
        shouldRetransmit t seq now timeout maxRetries = true ↔
          seq ∉ t.acks ∧ timeout < now - lastSentOf t seq ∧ retriesOf t seq < maxRetries) ∧
    CHUNK_RETRANSMIT_TIMEOUT = 1 ∧ CHUNK_MAX_RETRIES = 6 := by
  refine ⟨?_, rfl, rfl⟩
  intro t seq now timeout maxR
  unfold shouldRetransmit
  by_cases h1 : seq ∈ t.acks
  · simp [h1]
  · by_cases h2 : timeout < now - lastSentOf t seq
    · by_cases h3 : maxR ≤ retriesOf t seq
      · simp [h1, h2, h3, Nat.not_lt.2 h3]
      · simp [h1, h2, h3, Nat.lt_of_not_le h3]
    · simp [h1, h2]

/-- C8 counterexample.  On the two-chunk transfer `create_outbound` builds for the file
`[1, 2, 3]` with chunk size 2, sequence number 1 is NOT the current unacked chunk
(`base = 0`), yet `should_retransmit(1, now=2, timeout=1, max_retries=6)` returns true:
eligibility as claimed — requiring `seq = base` — is false on the code. -/
theorem C8_base_counterexample :
    ¬ ∀ t : OutboundTransfer, createOutbound "n" "f" "h" 2 [1, 2, 3] = some t →
        (shouldRetransmit t 1 2 1 6 = true ↔
          1 = t.base ∧ 1 < 2 - lastSentOf t 1 ∧ retriesOf t 1 < 6) := by
  intro h
  have htrue : shouldRetransmit outDemo 1 2 1 6 = true := by
    unfold shouldRetransmit lastSentOf retriesOf
    norm_num [outDemo, List.lookup]
  exact absurd ((h outDemo rfl).mp htrue).1 (by decide)
